import Mathlib

/-!
Verification development for the git-sync repository (Go).

The repository mirrors GitHub repositories to one destination host per run
(GitLab, Codeberg or Bitbucket).  The definitions below are a shallow
embedding of the current compile unit of the source:

* `main.go` (multi-target version with the `-target` flag),
* `github.go` (`getGitHubRepos`, `mirrorReposFromGitHub`),
* `gitlab.go` (current version: group-name project addressing, JSON bodies),
* `codeberg.go`,
* `bitbucket.go` (current version: email + API-token basic auth, push with the
  literal username x-bitbucket-api-token-auth).

Network interaction is embedded by passing each HTTP call its response (status
code, raw body, and the result JSON decoding would produce) as an explicit
argument; git subprocess calls are embedded by passing their success bit.
Issued side effects (git commands, provider mutations, log lines) are
reified into explicit event lists.
-/

/-- Result of a Go call returning `(value, error)`.  The source never inspects
the error value itself, only whether it is nil, so the error carries no data. -/
inductive GoResult (α : Type) where
  | ok (val : α)
  | err
  deriving DecidableEq, Repr

/-- An HTTP response as the source observes it: status code, raw body (read on
the error paths for logging), and the outcome of JSON-decoding the body into
the target type (`json.NewDecoder(resp.Body).Decode(target)`). -/
structure HttpResp (α : Type) where
  status : Nat
  body : String
  decoded : GoResult α
  deriving DecidableEq, Repr

/-- A log line of the form `<provider> API error <status>: <body>` emitted by
the handleXxxResponse helpers and the inline error paths. -/
inductive LogEvent where
  | apiError (provider : String) (status : Nat) (body : String)
  deriving DecidableEq, Repr

/-- GitHubRepo from github.go: name, clone URL and the private flag. -/
structure GitHubRepo where
  name : String
  cloneURL : String
  isPrivate : Bool
  deriving DecidableEq, Repr

/-- GitLabProject from gitlab.go: id and visibility string. -/
structure GitLabProject where
  id : Int
  visibility : String
  deriving DecidableEq, Repr

/-- CodebergRepo from codeberg.go (fields the reconciler reads). -/
structure CodebergRepo where
  owner : String := ""
  name : String := ""
  isPrivate : Bool
  deriving DecidableEq, Repr

/-- BitbucketRepo from bitbucket.go (fields the reconciler reads). -/
structure BitbucketRepo where
  uuid : String := ""
  slug : String := ""
  isPrivate : Bool
  deriving DecidableEq, Repr

/-- Config from main.go, restricted to the fields the embedded code reads. -/
structure Config where
  gitHubUser : String := ""
  gitHubToken : String := ""
  gitLabUser : String := ""
  gitLabGroup : String := ""
  gitLabToken : String := ""
  codebergUser : String := ""
  codebergToken : String := ""
  bitbucketEmail : String := ""
  bitbucketToken : String := ""
  bitbucketWs : String := ""
  repoVisibility : String := "auto"
  deriving DecidableEq, Repr

/-- handleGitLabResponse (gitlab.go): decode 2xx JSON responses, log and error
otherwise. -/
def handleGitLabResponse {α : Type} (resp : HttpResp α) : GoResult α × List LogEvent :=
  if 200 ≤ resp.status ∧ resp.status < 300 then
    match resp.decoded with
    | .ok a => (.ok a, [])
    | .err => (.err, [])
  else (.err, [.apiError "GitLab" resp.status resp.body])

/-- handleCodebergResponse (codeberg.go): same shape as the GitLab handler. -/
def handleCodebergResponse {α : Type} (resp : HttpResp α) : GoResult α × List LogEvent :=
  if 200 ≤ resp.status ∧ resp.status < 300 then
    match resp.decoded with
    | .ok a => (.ok a, [])
    | .err => (.err, [])
  else (.err, [.apiError "Codeberg" resp.status resp.body])

/-- handleBitbucketResponse (bitbucket.go): same shape as the GitLab handler
(the nil-target branch is never exercised by the embedded callers). -/
def handleBitbucketResponse {α : Type} (resp : HttpResp α) : GoResult α × List LogEvent :=
  if 200 ≤ resp.status ∧ resp.status < 300 then
    match resp.decoded with
    | .ok a => (.ok a, [])
    | .err => (.err, [])
  else (.err, [.apiError "Bitbucket" resp.status resp.body])

/-- getGitLabProject (gitlab.go), response-handling part: a 404 yields a nil
project with nil error; otherwise the response goes through
handleGitLabResponse. -/
def getGitLabProject (resp : HttpResp GitLabProject) :
    GoResult (Option GitLabProject) × List LogEvent :=
  if resp.status = 404 then (.ok none, [])
  else
    match handleGitLabResponse resp with
    | (.ok p, logs) => (.ok (some p), logs)
    | (.err, logs) => (.err, logs)

/-- getCodebergRepo (codeberg.go): a 404 yields nil with nil error; a 2xx
decodes the body; any other status logs the body and errors. -/
def getCodebergRepo (resp : HttpResp CodebergRepo) :
    GoResult (Option CodebergRepo) × List LogEvent :=
  if resp.status = 404 then (.ok none, [])
  else if 200 ≤ resp.status ∧ resp.status < 300 then
    match resp.decoded with
    | .ok repo => (.ok (some repo), [])
    | .err => (.err, [])
  else (.err, [.apiError "Codeberg" resp.status resp.body])

/-- getBitbucketRepo (bitbucket.go): a 404 yields nil with nil error;
otherwise the response goes through handleBitbucketResponse. -/
def getBitbucketRepo (resp : HttpResp BitbucketRepo) :
    GoResult (Option BitbucketRepo) × List LogEvent :=
  if resp.status = 404 then (.ok none, [])
  else
    match handleBitbucketResponse resp with
    | (.ok r, logs) => (.ok (some r), logs)
    | (.err, logs) => (.err, logs)

/-- createGitLabProject (gitlab.go), response-handling part. -/
def createGitLabProject (resp : HttpResp GitLabProject) :
    GoResult GitLabProject × List LogEvent :=
  handleGitLabResponse resp

/-- updateGitLabProjectVisibility (gitlab.go), response-handling part: only an
exact 200 counts as success; otherwise the body is logged and an error
returned. -/
def updateGitLabProjectVisibility (resp : HttpResp Unit) :
    GoResult Unit × List LogEvent :=
  if resp.status = 200 then (.ok (), [])
  else (.err, [.apiError "GitLab" resp.status resp.body])

/-- createCodebergRepo (codeberg.go), response-handling part. -/
def createCodebergRepo (resp : HttpResp CodebergRepo) :
    GoResult CodebergRepo × List LogEvent :=
  handleCodebergResponse resp

/-- updateCodebergRepoPrivate (codeberg.go), response-handling part. -/
def updateCodebergRepoPrivate (resp : HttpResp CodebergRepo) :
    GoResult CodebergRepo × List LogEvent :=
  handleCodebergResponse resp

/-- createBitbucketRepo (bitbucket.go), response-handling part. -/
def createBitbucketRepo (resp : HttpResp BitbucketRepo) :
    GoResult BitbucketRepo × List LogEvent :=
  handleBitbucketResponse resp

/-- updateBitbucketRepoPrivacy (bitbucket.go), response-handling part. -/
def updateBitbucketRepoPrivacy (resp : HttpResp BitbucketRepo) :
    GoResult BitbucketRepo × List LogEvent :=
  handleBitbucketResponse resp

/-- Mutation issued against GitLab by checkAndValidateGitLabRepos. -/
inductive GLAction where
  | create (visibility : String)
  | updateVisibility (id : Int) (visibility : String)
  deriving DecidableEq, Repr

/-- Mutation issued against Codeberg by checkAndValidateCodebergRepo. -/
inductive CBAction where
  | create (priv : Bool)
  | updatePrivate (priv : Bool)
  deriving DecidableEq, Repr

/-- Mutation issued against Bitbucket by checkAndValidateBitbucketRepo. -/
inductive BBAction where
  | create (priv : Bool)
  | updatePrivacy (priv : Bool)
  deriving DecidableEq, Repr

/-- checkAndValidateGitLabRepos (gitlab.go): look the project up; if absent,
create it with the desired visibility; if present with a different visibility,
update it; otherwise do nothing.  The embedding takes the outcomes of the
lookup, create and update calls and returns the overall outcome together with
the list of mutations issued. -/
def checkAndValidateGitLabRepos (lookupRes : GoResult (Option GitLabProject))
    (createRes : GoResult GitLabProject) (updateRes : GoResult Unit)
    (repoVisibility : String) : GoResult Unit × List GLAction :=
  match lookupRes with
  | .err => (.err, [])
  | .ok none =>
    match createRes with
    | .ok _ => (.ok (), [GLAction.create repoVisibility])
    | .err => (.err, [GLAction.create repoVisibility])
  | .ok (some proj) =>
    if proj.visibility ≠ repoVisibility then
      match updateRes with
      | .ok _ => (.ok (), [GLAction.updateVisibility proj.id repoVisibility])
      | .err => (.err, [GLAction.updateVisibility proj.id repoVisibility])
    else (.ok (), [])

/-- checkAndValidateCodebergRepo (codeberg.go): same decision table with a
boolean privacy flag. -/
def checkAndValidateCodebergRepo (lookupRes : GoResult (Option CodebergRepo))
    (createRes updateRes : GoResult CodebergRepo)
    (priv : Bool) : GoResult Unit × List CBAction :=
  match lookupRes with
  | .err => (.err, [])
  | .ok none =>
    match createRes with
    | .ok _ => (.ok (), [CBAction.create priv])
    | .err => (.err, [CBAction.create priv])
  | .ok (some repo) =>
    if repo.isPrivate ≠ priv then
      match updateRes with
      | .ok _ => (.ok (), [CBAction.updatePrivate priv])
      | .err => (.err, [CBAction.updatePrivate priv])
    else (.ok (), [])

/-- checkAndValidateBitbucketRepo (bitbucket.go): same decision table with a
boolean privacy flag. -/
def checkAndValidateBitbucketRepo (lookupRes : GoResult (Option BitbucketRepo))
    (createRes updateRes : GoResult BitbucketRepo)
    (priv : Bool) : GoResult Unit × List BBAction :=
  match lookupRes with
  | .err => (.err, [])
  | .ok none =>
    match createRes with
    | .ok _ => (.ok (), [BBAction.create priv])
    | .err => (.err, [BBAction.create priv])
  | .ok (some repo) =>
    if repo.isPrivate ≠ priv then
      match updateRes with
      | .ok _ => (.ok (), [BBAction.updatePrivacy priv])
      | .err => (.err, [BBAction.updatePrivacy priv])
    else (.ok (), [])

/-- C1: for every destination lookup result and desired visibility, the
reconciliation step performs exactly the action of the decision table: Absent
gives exactly one Create with the desired visibility and no update; Present
with matching visibility gives no mutation; Present with different visibility
gives exactly one UpdateVisibility and no create — for the GitLab, Codeberg
and Bitbucket adapters alike, whatever the outcomes of the mutation calls. -/
theorem c1_reconcile_decision_table :
    (∀ (c : GoResult GitLabProject) (u : GoResult Unit) (v : String),
      (checkAndValidateGitLabRepos (.ok none) c u v).2 = [GLAction.create v]) ∧
    (∀ (c : GoResult GitLabProject) (u : GoResult Unit) (p : GitLabProject) (v : String),
      p.visibility = v → (checkAndValidateGitLabRepos (.ok (some p)) c u v).2 = []) ∧
    (∀ (c : GoResult GitLabProject) (u : GoResult Unit) (p : GitLabProject) (v : String),
      p.visibility ≠ v →
      (checkAndValidateGitLabRepos (.ok (some p)) c u v).2 = [GLAction.updateVisibility p.id v]) ∧
    (∀ (c u : GoResult CodebergRepo) (v : Bool),
      (checkAndValidateCodebergRepo (.ok none) c u v).2 = [CBAction.create v]) ∧
    (∀ (c u : GoResult CodebergRepo) (r : CodebergRepo) (v : Bool),
      r.isPrivate = v → (checkAndValidateCodebergRepo (.ok (some r)) c u v).2 = []) ∧
    (∀ (c u : GoResult CodebergRepo) (r : CodebergRepo) (v : Bool),
      r.isPrivate ≠ v →
      (checkAndValidateCodebergRepo (.ok (some r)) c u v).2 = [CBAction.updatePrivate v]) ∧
    (∀ (c u : GoResult BitbucketRepo) (v : Bool),
      (checkAndValidateBitbucketRepo (.ok none) c u v).2 = [BBAction.create v]) ∧
    (∀ (c u : GoResult BitbucketRepo) (r : BitbucketRepo) (v : Bool),
      r.isPrivate = v → (checkAndValidateBitbucketRepo (.ok (some r)) c u v).2 = []) ∧
    (∀ (c u : GoResult BitbucketRepo) (r : BitbucketRepo) (v : Bool),
      r.isPrivate ≠ v →
      (checkAndValidateBitbucketRepo (.ok (some r)) c u v).2 = [BBAction.updatePrivacy v]) := by
  refine ⟨?_, ?_, ?_, ?_, ?_, ?_, ?_, ?_, ?_⟩
  · intro c u v; cases c <;> simp [checkAndValidateGitLabRepos]
  · intro c u p v h; simp [checkAndValidateGitLabRepos, h]
  · intro c u p v h; cases u <;> simp [checkAndValidateGitLabRepos, h]
  · intro c u v; cases c <;> simp [checkAndValidateCodebergRepo]
  · intro c u r v h; simp [checkAndValidateCodebergRepo, h]
  · intro c u r v h; cases u <;> simp [checkAndValidateCodebergRepo, h]
  · intro c u v; cases c <;> simp [checkAndValidateBitbucketRepo]
  · intro c u r v h; simp [checkAndValidateBitbucketRepo, h]
  · intro c u r v h; cases u <;> simp [checkAndValidateBitbucketRepo, h]

/-- C1 witness: the decision table evaluated at concrete inputs for the three
adapters (absent, matching, mismatching). -/
theorem c1_reconcile_decision_table_witness :
    (checkAndValidateGitLabRepos (.ok none) (.ok ⟨1, "private"⟩) (.ok ()) "private").2
        = [GLAction.create "private"] ∧
    (checkAndValidateGitLabRepos (.ok (some ⟨2, "private"⟩)) (.ok ⟨1, "private"⟩) (.ok ())
        "private").2 = [] ∧
    (checkAndValidateGitLabRepos (.ok (some ⟨2, "public"⟩)) (.ok ⟨1, "private"⟩) (.ok ())
        "private").2 = [GLAction.updateVisibility 2 "private"] ∧
    (checkAndValidateCodebergRepo (.ok none) (.ok ⟨"o", "n", true⟩) (.ok ⟨"o", "n", true⟩)
        true).2 = [CBAction.create true] ∧
    (checkAndValidateCodebergRepo (.ok (some ⟨"o", "n", true⟩)) (.ok ⟨"o", "n", true⟩)
        (.ok ⟨"o", "n", true⟩) true).2 = [] ∧
    (checkAndValidateCodebergRepo (.ok (some ⟨"o", "n", false⟩)) (.ok ⟨"o", "n", true⟩)
        (.ok ⟨"o", "n", true⟩) true).2 = [CBAction.updatePrivate true] ∧
    (checkAndValidateBitbucketRepo (.ok none) (.ok ⟨"u", "s", true⟩) (.ok ⟨"u", "s", true⟩)
        true).2 = [BBAction.create true] ∧
    (checkAndValidateBitbucketRepo (.ok (some ⟨"u", "s", true⟩)) (.ok ⟨"u", "s", true⟩)
        (.ok ⟨"u", "s", true⟩) true).2 = [] ∧
    (checkAndValidateBitbucketRepo (.ok (some ⟨"u", "s", false⟩)) (.ok ⟨"u", "s", true⟩)
        (.ok ⟨"u", "s", true⟩) true).2 = [BBAction.updatePrivacy true] := by
  obtain ⟨h1, h2, h3, h4, h5, h6, h7, h8, h9⟩ := c1_reconcile_decision_table
  exact ⟨h1 _ _ _, h2 _ _ _ _ (by decide), h3 _ _ _ _ (by decide),
    h4 _ _ _, h5 _ _ _ _ (by decide), h6 _ _ _ _ (by decide),
    h7 _ _ _, h8 _ _ _ _ (by decide), h9 _ _ _ _ (by decide)⟩

/-- C5: for every provider lookup, an HTTP 404 yields the absent state (nil
result, nil error, nothing logged), while any other non-2xx yields an error
after logging the status and response body. -/
theorem c5_lookup_not_found_mapping :
    (∀ (resp : HttpResp GitLabProject), resp.status = 404 →
      getGitLabProject resp = (.ok none, [])) ∧
    (∀ (resp : HttpResp GitLabProject), resp.status ≠ 404 →
      ¬(200 ≤ resp.status ∧ resp.status < 300) →
      getGitLabProject resp = (.err, [.apiError "GitLab" resp.status resp.body])) ∧
    (∀ (resp : HttpResp CodebergRepo), resp.status = 404 →
      getCodebergRepo resp = (.ok none, [])) ∧
    (∀ (resp : HttpResp CodebergRepo), resp.status ≠ 404 →
      ¬(200 ≤ resp.status ∧ resp.status < 300) →
      getCodebergRepo resp = (.err, [.apiError "Codeberg" resp.status resp.body])) ∧
    (∀ (resp : HttpResp BitbucketRepo), resp.status = 404 →
      getBitbucketRepo resp = (.ok none, [])) ∧
    (∀ (resp : HttpResp BitbucketRepo), resp.status ≠ 404 →
      ¬(200 ≤ resp.status ∧ resp.status < 300) →
      getBitbucketRepo resp = (.err, [.apiError "Bitbucket" resp.status resp.body])) := by
  refine ⟨?_, ?_, ?_, ?_, ?_, ?_⟩
  · intro resp h; simp [getGitLabProject, h]
  · intro resp h h2; simp [getGitLabProject, handleGitLabResponse, h, h2]
  · intro resp h; simp [getCodebergRepo, h]
  · intro resp h h2; simp [getCodebergRepo, h, h2]
  · intro resp h; simp [getBitbucketRepo, h]
  · intro resp h h2; simp [getBitbucketRepo, handleBitbucketResponse, h, h2]

/-- C5 witness: a 404 and a 500 response evaluated for each provider. -/
theorem c5_lookup_not_found_mapping_witness :
    getGitLabProject ⟨404, "nf", .err⟩ = (.ok none, []) ∧
    getGitLabProject ⟨500, "boom", .err⟩ = (.err, [.apiError "GitLab" 500 "boom"]) ∧
    getCodebergRepo ⟨404, "nf", .err⟩ = (.ok none, []) ∧
    getCodebergRepo ⟨500, "boom", .err⟩ = (.err, [.apiError "Codeberg" 500 "boom"]) ∧
    getBitbucketRepo ⟨404, "nf", .err⟩ = (.ok none, []) ∧
    getBitbucketRepo ⟨500, "boom", .err⟩ = (.err, [.apiError "Bitbucket" 500 "boom"]) := by
  obtain ⟨h1, h2, h3, h4, h5, h6⟩ := c5_lookup_not_found_mapping
  exact ⟨h1 _ (by decide), h2 _ (by decide) (by decide),
    h3 _ (by decide), h4 _ (by decide) (by decide),
    h5 _ (by decide), h6 _ (by decide) (by decide)⟩

/-! Remote-state model for the idempotence claim: the destination remote for
one repository is `none` (absent) or `some descriptor`; Create establishes the
repository with the requested visibility and UpdateVisibility sets it, as the
claim stipulates. -/

/-- Effect of a GitLab mutation on the remote state of one repository:
Create establishes it with the requested visibility (and a provider-chosen
id), UpdateVisibility sets the visibility. -/
def applyGLAction (newId : Int) : Option GitLabProject → GLAction → Option GitLabProject
  | _, GLAction.create vis => some { id := newId, visibility := vis }
  | some p, GLAction.updateVisibility _ vis => some { p with visibility := vis }
  | none, GLAction.updateVisibility _ _ => none

/-- Effect of a Codeberg mutation on the remote state of one repository. -/
def applyCBAction : Option CodebergRepo → CBAction → Option CodebergRepo
  | _, CBAction.create priv => some { isPrivate := priv }
  | some r, CBAction.updatePrivate priv => some { r with isPrivate := priv }
  | none, CBAction.updatePrivate _ => none

/-- Effect of a Bitbucket mutation on the remote state of one repository. -/
def applyBBAction : Option BitbucketRepo → BBAction → Option BitbucketRepo
  | _, BBAction.create priv => some { isPrivate := priv }
  | some r, BBAction.updatePrivacy priv => some { r with isPrivate := priv }
  | none, BBAction.updatePrivacy _ => none

/-- Lookup response the remote serves for a GitLab repository state: 404 when
absent, 200 with the descriptor when present. -/
def glStateResp : Option GitLabProject → HttpResp GitLabProject
  | none => ⟨404, "", .err⟩
  | some p => ⟨200, "", .ok p⟩

/-- Lookup response the remote serves for a Codeberg repository state. -/
def cbStateResp : Option CodebergRepo → HttpResp CodebergRepo
  | none => ⟨404, "", .err⟩
  | some r => ⟨200, "", .ok r⟩

/-- Lookup response the remote serves for a Bitbucket repository state. -/
def bbStateResp : Option BitbucketRepo → HttpResp BitbucketRepo
  | none => ⟨404, "", .err⟩
  | some r => ⟨200, "", .ok r⟩

/-- C7: under the remote-state model in which Create establishes the
repository with the requested visibility and UpdateVisibility sets it, after
one reconciliation pass the remote is Present with the desired visibility, and
a second pass over the resulting state issues zero Create and zero
UpdateVisibility actions — for each adapter, from any initial state. -/
theorem c7_second_run_is_noop :
    (∀ (s : Option GitLabProject) (v : String) (newId : Int) (c : GitLabProject),
      (∃ p, ((checkAndValidateGitLabRepos (getGitLabProject (glStateResp s)).1
              (.ok c) (.ok ()) v).2.foldl (applyGLAction newId) s) = some p ∧
            p.visibility = v) ∧
      (checkAndValidateGitLabRepos
        (getGitLabProject (glStateResp
          ((checkAndValidateGitLabRepos (getGitLabProject (glStateResp s)).1
            (.ok c) (.ok ()) v).2.foldl (applyGLAction newId) s))).1
        (.ok c) (.ok ()) v).2 = []) ∧
    (∀ (s : Option CodebergRepo) (v : Bool) (c : CodebergRepo),
      (∃ r, ((checkAndValidateCodebergRepo (getCodebergRepo (cbStateResp s)).1
              (.ok c) (.ok c) v).2.foldl applyCBAction s) = some r ∧
            r.isPrivate = v) ∧
      (checkAndValidateCodebergRepo
        (getCodebergRepo (cbStateResp
          ((checkAndValidateCodebergRepo (getCodebergRepo (cbStateResp s)).1
            (.ok c) (.ok c) v).2.foldl applyCBAction s))).1
        (.ok c) (.ok c) v).2 = []) ∧
    (∀ (s : Option BitbucketRepo) (v : Bool) (c : BitbucketRepo),
      (∃ r, ((checkAndValidateBitbucketRepo (getBitbucketRepo (bbStateResp s)).1
              (.ok c) (.ok c) v).2.foldl applyBBAction s) = some r ∧
            r.isPrivate = v) ∧
      (checkAndValidateBitbucketRepo
        (getBitbucketRepo (bbStateResp
          ((checkAndValidateBitbucketRepo (getBitbucketRepo (bbStateResp s)).1
            (.ok c) (.ok c) v).2.foldl applyBBAction s))).1
        (.ok c) (.ok c) v).2 = []) := by
  refine ⟨?_, ?_, ?_⟩
  · intro s v newId c
    cases s with
    | none =>
      simp [glStateResp, getGitLabProject, handleGitLabResponse,
        checkAndValidateGitLabRepos, applyGLAction]
    | some p =>
      by_cases h : p.visibility = v
      · simp [glStateResp, getGitLabProject, handleGitLabResponse,
          checkAndValidateGitLabRepos, applyGLAction, h]
      · simp [glStateResp, getGitLabProject, handleGitLabResponse,
          checkAndValidateGitLabRepos, applyGLAction, h]
  · intro s v c
    cases s with
    | none =>
      simp [cbStateResp, getCodebergRepo, checkAndValidateCodebergRepo, applyCBAction]
    | some r =>
      by_cases h : r.isPrivate = v
      · simp [cbStateResp, getCodebergRepo, checkAndValidateCodebergRepo, applyCBAction, h]
      · simp [cbStateResp, getCodebergRepo, checkAndValidateCodebergRepo, applyCBAction, h]
  · intro s v c
    cases s with
    | none =>
      simp [bbStateResp, getBitbucketRepo, handleBitbucketResponse,
        checkAndValidateBitbucketRepo, applyBBAction]
    | some r =>
      by_cases h : r.isPrivate = v
      · simp [bbStateResp, getBitbucketRepo, handleBitbucketResponse,
          checkAndValidateBitbucketRepo, applyBBAction, h]
      · simp [bbStateResp, getBitbucketRepo, handleBitbucketResponse,
          checkAndValidateBitbucketRepo, applyBBAction, h]

/-! Source lister (github.go `getGitHubRepos`). Each page request either fails
at the transport level (`glClient.Do` returns an error) or yields an HTTP
response whose body decodes to a batch of repositories (decoding fails on
non-JSON bodies).  Pages past the supplied list are empty 200 responses, which
matches the GitHub API once the listing is exhausted. -/

/-- Outcome of one page request issued by getGitHubRepos. -/
inductive PageOutcome where
  | transportErr
  | page (status : Nat) (decoded : GoResult (List GitHubRepo))
  deriving DecidableEq, Repr

/-- getGitHubRepos (github.go): request pages starting at 1; a transport error
aborts with an error; a non-2xx status or a decode failure breaks out of the
loop returning what was collected so far; an empty batch breaks likewise; a
non-empty batch is appended and the next page is requested.  Returns the
result together with the number of page requests made. -/
def getGitHubRepos : List PageOutcome → GoResult (List GitHubRepo) × Nat
  | [] => (.ok [], 1)
  | PageOutcome.transportErr :: _ => (.err, 1)
  | PageOutcome.page status decoded :: rest =>
    if 200 ≤ status ∧ status < 300 then
      match decoded with
      | .err => (.ok [], 1)
      | .ok [] => (.ok [], 1)
      | .ok batch =>
        match getGitHubRepos rest with
        | (.ok more, n) => (.ok (batch ++ more), n + 1)
        | (.err, n) => (.err, n + 1)
    else (.ok [], 1)

/-- Sample repository for the concrete pagination scenario. -/
def c6Repo : GitHubRepo := { name := "r", cloneURL := "https://example/r.git", isPrivate := false }

/-- Page responses of sizes 100, 100, 37, 0 at page size 100. -/
def c6Pages : List PageOutcome :=
  [PageOutcome.page 200 (.ok (List.replicate 100 c6Repo)),
   PageOutcome.page 200 (.ok (List.replicate 100 c6Repo)),
   PageOutcome.page 200 (.ok (List.replicate 37 c6Repo)),
   PageOutcome.page 200 (.ok [])]

/-- C6: given successive page responses containing 100, 100, 37 and 0
repositories, the source lister returns exactly 237 repositories and makes
exactly 4 requests — a page shorter than the page size does not stop
pagination. -/
theorem c6_pagination_termination :
    (getGitHubRepos c6Pages).1 =
      GoResult.ok (List.replicate 100 c6Repo ++ (List.replicate 100 c6Repo ++
        List.replicate 37 c6Repo)) ∧
    (List.replicate 100 c6Repo ++ (List.replicate 100 c6Repo ++
        List.replicate 37 c6Repo)).length = 237 ∧
    (getGitHubRepos c6Pages).2 = 4 := by
  refine ⟨?_, ?_, ?_⟩ <;> rfl

/-! Orchestrator (main.go).  One destination target per run; per-repository
phases are mirror, validate (lookup + create/update) and push; failures are
logged and the loop continues with the next repository. -/

/-- Sync target selected by the -target flag. -/
inductive Target where
  | gitlab
  | codeberg
  | bitbucket
  deriving DecidableEq, Repr

/-- Environment for one mirrorReposFromGitHub call: whether the local mirror
directory exists, and the exit status of the git fetch and git clone
subprocesses (at most one clone runs per call). -/
structure MirrorEnv where
  localExists : Bool
  fetchOk : Bool
  cloneOk : Bool
  deriving DecidableEq, Repr

/-- Observable effect produced while processing repositories: git subprocess
invocations, directory removal, provider API calls, the push, and the error
log lines the loop emits before continuing. -/
inductive Event where
  | gitClone (name : String)
  | gitFetch (name : String)
  | removeDir (name : String)
  | groupLookup (group : String)
  | lookupRepo (path : String)
  | glCreate (name : String) (visibility : String)
  | glUpdate (name : String) (id : Int) (visibility : String)
  | cbCreate (name : String) (priv : Bool)
  | cbUpdate (name : String) (priv : Bool)
  | bbCreate (name : String) (priv : Bool)
  | bbUpdate (name : String) (priv : Bool)
  | push (name : String)
  | logFailure (name : String) (phase : String)
  deriving DecidableEq, Repr

/-- mirrorReposFromGitHub (github.go): clone if the local path does not exist;
otherwise fetch with prune, and on fetch failure delete the directory and
retry once as a clone. -/
def mirrorReposFromGitHub (env : MirrorEnv) (repoName : String) : Bool × List Event :=
  if !env.localExists then
    (env.cloneOk, [.gitClone repoName])
  else if env.fetchOk then
    (true, [.gitFetch repoName])
  else
    (env.cloneOk, [.gitFetch repoName, .removeDir repoName, .gitClone repoName])

/-- computeRepoVisibility (main.go, body of the repository loop): auto maps
the source private flag, a non-empty configured value is used verbatim, and
the hard-coded default "private" remains only for the empty string. -/
def computeRepoVisibility (configRepoVisibility : String) (repoPrivate : Bool) : String :=
  if configRepoVisibility = "auto" then
    if repoPrivate then "private" else "public"
  else if configRepoVisibility ≠ "" then
    configRepoVisibility
  else "private"

/-- Project path computed by getGitLabProject (gitlab.go): group/name when a
group id was resolved and a group is configured, user/name otherwise (the
URL escaping applied before the request does not change the path choice). -/
def gitLabProjPath (gitLabGroup repoName userName : String) (groupID : Option Int) : String :=
  match groupID with
  | some _ =>
    if gitLabGroup ≠ "" then gitLabGroup ++ "/" ++ repoName
    else userName ++ "/" ++ repoName
  | none => userName ++ "/" ++ repoName

/-- GitLab group descriptor decoded by getGitLabGroupID. -/
structure GroupInfo where
  id : Int
  deriving DecidableEq, Repr

/-- getGitLabGroupID (gitlab.go): no call at all when no group is configured;
otherwise one group-lookup request whose 2xx response yields the id and any
other outcome is an error. -/
def getGitLabGroupID (gitLabGroup : String) (resp : HttpResp GroupInfo) :
    GoResult (Option Int) × List Event :=
  if gitLabGroup = "" then (.ok none, [])
  else if 200 ≤ resp.status ∧ resp.status < 300 then
    match resp.decoded with
    | .ok g => (.ok (some g.id), [.groupLookup gitLabGroup])
    | .err => (.err, [.groupLookup gitLabGroup])
  else (.err, [.groupLookup gitLabGroup])

/-- External outcomes for one iteration of the repository loop: the mirror
phase, the push, and the responses of the provider API calls that may be
issued for this repository (only the fields of the selected target matter). -/
structure RepoEnv where
  mirror : MirrorEnv := { localExists := false, fetchOk := true, cloneOk := true }
  pushOk : Bool := true
  glLookup : HttpResp GitLabProject := ⟨404, "", .err⟩
  glCreate : HttpResp GitLabProject := ⟨201, "", .ok ⟨1, "private"⟩⟩
  glUpdate : HttpResp Unit := ⟨200, "", .ok ()⟩
  cbLookup : HttpResp CodebergRepo := ⟨404, "", .err⟩
  cbCreate : HttpResp CodebergRepo := ⟨201, "", .ok { isPrivate := true }⟩
  cbUpdate : HttpResp CodebergRepo := ⟨200, "", .ok { isPrivate := true }⟩
  bbLookup : HttpResp BitbucketRepo := ⟨404, "", .err⟩
  bbCreate : HttpResp BitbucketRepo := ⟨200, "", .ok { isPrivate := true }⟩
  bbUpdate : HttpResp BitbucketRepo := ⟨200, "", .ok { isPrivate := true }⟩
  deriving DecidableEq, Repr

/-- Event recorded for a GitLab mutation of the named repository. -/
def glActionEvent (repoName : String) : GLAction → Event
  | GLAction.create vis => .glCreate repoName vis
  | GLAction.updateVisibility id vis => .glUpdate repoName id vis

/-- Event recorded for a Codeberg mutation of the named repository. -/
def cbActionEvent (repoName : String) : CBAction → Event
  | CBAction.create priv => .cbCreate repoName priv
  | CBAction.updatePrivate priv => .cbUpdate repoName priv

/-- Event recorded for a Bitbucket mutation of the named repository. -/
def bbActionEvent (repoName : String) : BBAction → Event
  | BBAction.create priv => .bbCreate repoName priv
  | BBAction.updatePrivacy priv => .bbUpdate repoName priv

/-- Result of one iteration of the repository loop: either the in-loop
log.Fatalf on missing credentials (codeberg and bitbucket targets only), or a
completed iteration with its success flag and emitted events. -/
inductive StepResult where
  | fatal
  | step (ok : Bool) (events : List Event)
  deriving DecidableEq, Repr

/-- Success flag of a loop iteration (fatal iterations never succeed). -/
def stepOk : StepResult → Bool
  | .fatal => false
  | .step ok _ => ok

/-- Events of a loop iteration. -/
def stepEvents : StepResult → List Event
  | .fatal => []
  | .step _ ev => ev

/-- Validate-then-push tail of one loop iteration, shared verbatim by the
three target branches of main (main.go): a validation error is logged and
skips the repository; otherwise the mirror push runs and a push failure is
logged and skips the repository; only a pushed repository counts as done. -/
def finishRepo (repoName : String) (mEv aEv : List Event) (vres : GoResult Unit)
    (pushOk : Bool) : StepResult :=
  match vres with
  | .err => .step false (mEv ++ aEv ++ [.logFailure repoName "validate"])
  | .ok _ =>
    if pushOk then .step true (mEv ++ aEv ++ [.push repoName])
    else .step false (mEv ++ aEv ++ [.push repoName, .logFailure repoName "push"])

/-- One iteration of the repository loop in main (main.go): compute the
desired visibility, ensure the local mirror (skip and log on failure), then
per target validate the destination repository (skip and log on failure) and
mirror-push to it (skip and log on failure). -/
def processRepo (t : Target) (cfg : Config) (gitlabGroupID : Option Int)
    (env : RepoEnv) (repo : GitHubRepo) : StepResult :=
  let repoVisibility := computeRepoVisibility cfg.repoVisibility repo.isPrivate
  let m := mirrorReposFromGitHub env.mirror repo.name
  if !m.1 then .step false (m.2 ++ [.logFailure repo.name "mirror"])
  else
    match t with
    | Target.gitlab =>
      let projPath := gitLabProjPath cfg.gitLabGroup repo.name cfg.gitLabUser gitlabGroupID
      let v := checkAndValidateGitLabRepos (getGitLabProject env.glLookup).1
        (createGitLabProject env.glCreate).1 (updateGitLabProjectVisibility env.glUpdate).1
        repoVisibility
      let aEv := Event.lookupRepo projPath :: v.2.map (glActionEvent repo.name)
      finishRepo repo.name m.2 aEv v.1 env.pushOk
    | Target.codeberg =>
      if cfg.codebergUser = "" ∨ cfg.codebergToken = "" then .fatal
      else
        let priv := repoVisibility == "private"
        let v := checkAndValidateCodebergRepo (getCodebergRepo env.cbLookup).1
          (createCodebergRepo env.cbCreate).1 (updateCodebergRepoPrivate env.cbUpdate).1 priv
        let aEv := Event.lookupRepo (cfg.codebergUser ++ "/" ++ repo.name) ::
          v.2.map (cbActionEvent repo.name)
        finishRepo repo.name m.2 aEv v.1 env.pushOk
    | Target.bitbucket =>
      if cfg.bitbucketEmail = "" ∨ cfg.bitbucketToken = "" ∨ cfg.bitbucketWs = "" then .fatal
      else
        let priv := repoVisibility == "private"
        let v := checkAndValidateBitbucketRepo (getBitbucketRepo env.bbLookup).1
          (createBitbucketRepo env.bbCreate).1 (updateBitbucketRepoPrivacy env.bbUpdate).1 priv
        let aEv := Event.lookupRepo (cfg.bitbucketWs ++ "/" ++ repo.name) ::
          v.2.map (bbActionEvent repo.name)
        finishRepo repo.name m.2 aEv v.1 env.pushOk

/-- The repository loop of main (main.go): process repositories in order,
counting the fully successful ones; an in-loop log.Fatalf aborts the process
(modelled as none). -/
def syncLoop (step : GitHubRepo → StepResult) : List GitHubRepo → Option (Nat × List Event)
  | [] => some (0, [])
  | r :: rest =>
    match step r with
    | .fatal => none
    | .step ok ev =>
      match syncLoop step rest with
      | none => none
      | some (n, evs) => some ((if ok then 1 else 0) + n, ev ++ evs)

/-- Final observable outcome of a run of main: process exit code, success
counter, total repository count, and the emitted events. -/
structure MainResult where
  exitCode : Nat
  done : Nat
  total : Nat
  events : List Event
  deriving DecidableEq, Repr

/-- main (main.go) for a valid target, with the repository filter flag unset:
list the GitHub repositories (log.Fatal on a transport error), resolve the
GitLab group id once when the target is gitlab (log.Fatal on failure), return
early with exit 0 when no repositories were found, and otherwise run the
repository loop and exit 0. -/
def runMain (t : Target) (cfg : Config) (pages : List PageOutcome)
    (groupResp : HttpResp GroupInfo) (envs : String → RepoEnv) : MainResult :=
  match (getGitHubRepos pages).1 with
  | .err => { exitCode := 1, done := 0, total := 0, events := [] }
  | .ok repos =>
    let g := if t = Target.gitlab then getGitLabGroupID cfg.gitLabGroup groupResp
             else (.ok none, [])
    match g.1 with
    | .err => { exitCode := 1, done := 0, total := 0, events := g.2 }
    | .ok gitlabGroupID =>
      if repos.isEmpty then { exitCode := 0, done := 0, total := 0, events := g.2 }
      else
        match syncLoop (fun r => processRepo t cfg gitlabGroupID (envs r.name) r) repos with
        | none => { exitCode := 1, done := 0, total := repos.length, events := g.2 }
        | some nev => { exitCode := 0, done := nev.1, total := repos.length,
                        events := g.2 ++ nev.2 }

/-- Concrete scenario for the first-page claim: page 1 answers 500. -/
def c2Pages : List PageOutcome := [PageOutcome.page 500 (.ok [])]

/-- C2 counterexample: when page 1 of the source listing returns HTTP 500, the
run does NOT fail fatally — getGitHubRepos returns an empty list with nil
error, and main exits with code 0 having processed nothing, refuting the
claimed non-zero exit. -/
theorem c2_counterexample_first_page_not_fatal :
    (getGitHubRepos c2Pages).1 = GoResult.ok [] ∧
    (runMain Target.gitlab {} c2Pages ⟨404, "", .err⟩ (fun _ => {})).exitCode = 0 ∧
    (runMain Target.gitlab {} c2Pages ⟨404, "", .err⟩ (fun _ => {})).events = [] := by
  refine ⟨rfl, rfl, rfl⟩

/-- C2 (amended): a non-2xx response on any page — the first included —
terminates pagination and returns the repositories collected so far without
error; on page 1 that partial result is empty, and the run then exits with
code 0 (treated as no repositories found), not a fatal non-zero exit.  Only a
transport-level request error is fatal. -/
theorem c2_pagination_error_handling :
    (∀ (s : Nat) (d : GoResult (List GitHubRepo)) (rest : List PageOutcome),
      ¬(200 ≤ s ∧ s < 300) →
      getGitHubRepos (PageOutcome.page s d :: rest) = (.ok [], 1)) ∧
    (∀ (t : Target) (cfg : Config) (groupResp : HttpResp GroupInfo)
       (envs : String → RepoEnv) (s : Nat) (d : GoResult (List GitHubRepo))
       (rest : List PageOutcome),
      ¬(200 ≤ s ∧ s < 300) →
      (t = Target.gitlab → (getGitLabGroupID cfg.gitLabGroup groupResp).1 ≠ GoResult.err) →
      (runMain t cfg (PageOutcome.page s d :: rest) groupResp envs).exitCode = 0 ∧
      (runMain t cfg (PageOutcome.page s d :: rest) groupResp envs).total = 0) ∧
    (∀ (batches : List (List GitHubRepo)) (s : Nat) (d : GoResult (List GitHubRepo))
       (rest : List PageOutcome),
      (∀ b ∈ batches, b ≠ []) → ¬(200 ≤ s ∧ s < 300) →
      getGitHubRepos (batches.map (fun b => PageOutcome.page 200 (.ok b)) ++
          (PageOutcome.page s d :: rest)) =
        (.ok batches.flatten, batches.length + 1)) ∧
    (∀ rest, getGitHubRepos (PageOutcome.transportErr :: rest) = (.err, 1)) ∧
    (∀ (t : Target) (cfg : Config) (groupResp : HttpResp GroupInfo)
       (envs : String → RepoEnv) (rest : List PageOutcome),
      (runMain t cfg (PageOutcome.transportErr :: rest) groupResp envs).exitCode = 1) := by
  have hbreak : ∀ (s : Nat) (d : GoResult (List GitHubRepo)) (rest : List PageOutcome),
      ¬(200 ≤ s ∧ s < 300) →
      getGitHubRepos (PageOutcome.page s d :: rest) = (.ok [], 1) := by
    intro s d rest h
    simp [getGitHubRepos, h]
  refine ⟨hbreak, ?_, ?_, ?_, ?_⟩
  · intro t cfg groupResp envs s d rest h hg
    have h1 : (getGitHubRepos (PageOutcome.page s d :: rest)).1 = GoResult.ok [] := by
      rw [hbreak s d rest h]
    cases t with
    | gitlab =>
      rcases hgl : (getGitLabGroupID cfg.gitLabGroup groupResp).1 with gid | _
      · simp [runMain, h1, hgl]
      · exact absurd hgl (hg rfl)
    | codeberg => simp [runMain, h1]
    | bitbucket => simp [runMain, h1]
  · intro batches
    induction batches with
    | nil =>
      intro s d rest _ h
      simpa using hbreak s d rest h
    | cons b bs ih =>
      intro s d rest hne h
      have hb : b ≠ [] := hne b (by simp)
      cases b with
      | nil => exact absurd rfl hb
      | cons x xs =>
        have := ih s d rest (fun b hb2 => hne b (by simp [hb2])) h
        simp only [List.map_cons, List.cons_append, getGitHubRepos]
        rw [if_pos (by omega)]
        simp [this]
  · intro rest; rfl
  · intro t cfg groupResp envs rest
    simp [runMain, getGitHubRepos]

/-- C2 witness: the amended behaviour evaluated at concrete inputs — a 500 on
page 1 (empty partial result, exit 0), a 503 on page 2 after one good page
(partial result of one repository, 2 requests), and a transport failure
(fatal, exit 1). -/
theorem c2_pagination_error_handling_witness :
    getGitHubRepos [PageOutcome.page 500 (.ok []), PageOutcome.transportErr] = (.ok [], 1) ∧
    (runMain Target.codeberg {} [PageOutcome.page 500 (.ok [])] ⟨404, "", .err⟩
        (fun _ => {})).exitCode = 0 ∧
    getGitHubRepos ([[c6Repo]].map (fun b => PageOutcome.page 200 (.ok b)) ++
        (PageOutcome.page 503 .err :: [])) = (.ok [c6Repo], 2) ∧
    getGitHubRepos [PageOutcome.transportErr] = (.err, 1) := by
  obtain ⟨h1, h2, h3, h4, _⟩ := c2_pagination_error_handling
  refine ⟨h1 500 (.ok []) [PageOutcome.transportErr] (by omega), ?_, ?_, h4 []⟩
  · exact (h2 Target.codeberg {} ⟨404, "", .err⟩ (fun _ => {}) 500 (.ok []) []
      (by omega) (fun h => nomatch h)).1
  · have := h3 [[c6Repo]] 503 .err [] (by simp) (by omega)
    simpa using this

/-- Events emitted by the mirror phase are git fetch, directory removal or git
clone events for that repository, never provider or push events. -/
theorem mirror_events_cases (env : MirrorEnv) (n : String) :
    ∀ e ∈ (mirrorReposFromGitHub env n).2,
      e = Event.gitFetch n ∨ e = Event.removeDir n ∨ e = Event.gitClone n := by
  intro e he
  unfold mirrorReposFromGitHub at he
  split at he
  · simp at he; tauto
  · split at he <;> simp at he <;> tauto

/-- C4: when a fetch on an existing local mirror fails, the directory is
removed and exactly one reclone is attempted; if that reclone also fails, the
iteration fails and no push is attempted; conversely any iteration that
reaches the push step had a successful mirror phase, which holds exactly when
the mirror was freshly cloned or successfully fetched (or recloned) in this
run. -/
theorem c4_mirror_recovery :
    (∀ (env : MirrorEnv) (name : String), env.localExists = true → env.fetchOk = false →
      mirrorReposFromGitHub env name =
        (env.cloneOk, [.gitFetch name, .removeDir name, .gitClone name]) ∧
      ((mirrorReposFromGitHub env name).2.countP (fun e => e == Event.gitClone name)) = 1) ∧
    (∀ (t : Target) (cfg : Config) (gid : Option Int) (env : RepoEnv) (r : GitHubRepo),
      env.mirror.localExists = true → env.mirror.fetchOk = false →
      env.mirror.cloneOk = false →
      stepOk (processRepo t cfg gid env r) = false ∧
      Event.push r.name ∉ stepEvents (processRepo t cfg gid env r)) ∧
    (∀ (t : Target) (cfg : Config) (gid : Option Int) (env : RepoEnv) (r : GitHubRepo),
      Event.push r.name ∈ stepEvents (processRepo t cfg gid env r) →
      (mirrorReposFromGitHub env.mirror r.name).1 = true) ∧
    (∀ (env : MirrorEnv) (name : String),
      (mirrorReposFromGitHub env name).1 = true ↔
        (env.localExists = false ∧ env.cloneOk = true) ∨
        (env.localExists = true ∧ env.fetchOk = true) ∨
        (env.localExists = true ∧ env.fetchOk = false ∧ env.cloneOk = true)) := by
  refine ⟨?_, ?_, ?_, ?_⟩
  · intro env name h1 h2
    constructor
    · simp [mirrorReposFromGitHub, h1, h2]
    · simp [mirrorReposFromGitHub, h1, h2, List.countP_cons]
  · intro t cfg gid env r h1 h2 h3
    have hm : mirrorReposFromGitHub env.mirror r.name =
        (false, [.gitFetch r.name, .removeDir r.name, .gitClone r.name]) := by
      simp [mirrorReposFromGitHub, h1, h2, h3]
    constructor
    · cases t <;> simp [processRepo, hm, stepOk]
    · cases t <;> simp [processRepo, hm, stepEvents]
  · intro t cfg gid env r hmem
    by_cases hm : (mirrorReposFromGitHub env.mirror r.name).1 = true
    · exact hm
    · exfalso
      have hm2 : (mirrorReposFromGitHub env.mirror r.name).1 = false := by
        simpa using hm
      have hev : stepEvents (processRepo t cfg gid env r) =
          (mirrorReposFromGitHub env.mirror r.name).2 ++
            [Event.logFailure r.name "mirror"] := by
        cases t <;> simp [processRepo, hm2, stepEvents]
      rw [hev] at hmem
      rcases List.mem_append.1 hmem with h | h
      · rcases mirror_events_cases env.mirror r.name _ h with h2 | h2 | h2 <;> cases h2
      · simp at h
  · intro env name
    unfold mirrorReposFromGitHub
    rcases env with ⟨le, fo, co⟩
    cases le <;> cases fo <;> cases co <;> simp

/-- C4 witness: an existing mirror whose fetch and reclone both fail is
removed, recloned exactly once, the iteration fails, and no push happens. -/
theorem c4_mirror_recovery_witness :
    mirrorReposFromGitHub ⟨true, false, false⟩ "n" =
      (false, [.gitFetch "n", .removeDir "n", .gitClone "n"]) ∧
    ((mirrorReposFromGitHub ⟨true, false, false⟩ "n").2.countP
      (fun e => e == Event.gitClone "n")) = 1 ∧
    stepOk (processRepo Target.gitlab {} none
      { mirror := ⟨true, false, false⟩ } ⟨"n", "", false⟩) = false ∧
    Event.push "n" ∉ stepEvents (processRepo Target.gitlab {} none
      { mirror := ⟨true, false, false⟩ } ⟨"n", "", false⟩) ∧
    ((mirrorReposFromGitHub ⟨true, false, true⟩ "n").1 = true) := by
  obtain ⟨h1, h2, _, h4⟩ := c4_mirror_recovery
  obtain ⟨ha, hb⟩ := h1 ⟨true, false, false⟩ "n" rfl rfl
  obtain ⟨hc, hd⟩ := h2 Target.gitlab {} none
    { mirror := ⟨true, false, false⟩ } ⟨"n", "", false⟩ rfl rfl rfl
  exact ⟨ha, hb, hc, hd, (h4 ⟨true, false, true⟩ "n").2 (by tauto)⟩

/-- Credentials the in-loop log.Fatalf checks require for the selected target
(loadConfig guarantees them via mustGetEnv before main reaches the loop). -/
def credsOk : Target → Config → Prop
  | Target.gitlab, _ => True
  | Target.codeberg, cfg => cfg.codebergUser ≠ "" ∧ cfg.codebergToken ≠ ""
  | Target.bitbucket, cfg =>
      cfg.bitbucketEmail ≠ "" ∧ cfg.bitbucketToken ≠ "" ∧ cfg.bitbucketWs ≠ ""

/-- The validate-and-push tail never aborts the process. -/
theorem finishRepo_ne_fatal (n : String) (mEv aEv : List Event) (v : GoResult Unit)
    (p : Bool) : finishRepo n mEv aEv v p ≠ StepResult.fatal := by
  unfold finishRepo
  rcases v with u | _
  · by_cases hp : p = true <;> simp [hp]
  · simp

/-- A loop iteration succeeds exactly when its validation returned nil and its
mirror push succeeded. -/
theorem stepOk_finishRepo (n : String) (mEv aEv : List Event) (v : GoResult Unit)
    (p : Bool) : stepOk (finishRepo n mEv aEv v p) = true ↔ v = .ok () ∧ p = true := by
  unfold finishRepo
  rcases v with u | _
  · cases p <;> simp [stepOk]
  · simp [stepOk]

/-- A failed validate-or-push tail leaves a logged failure among its events. -/
theorem finishRepo_failure_log (n : String) (mEv aEv : List Event) (v : GoResult Unit)
    (p : Bool) (hf : stepOk (finishRepo n mEv aEv v p) = false) :
    ∃ ph, Event.logFailure n ph ∈ stepEvents (finishRepo n mEv aEv v p) := by
  unfold finishRepo at hf ⊢
  rcases v with u | _
  · cases p with
    | false => exact ⟨"push", by simp [stepEvents]⟩
    | true => simp [stepOk] at hf
  · exact ⟨"validate", by simp [stepEvents]⟩

/-- Events of the validate-and-push tail come from the mirror phase, the
provider calls, the push, or a logged failure for this repository. -/
theorem finishRepo_events_cases (n : String) (mEv aEv : List Event) (v : GoResult Unit)
    (p : Bool) : ∀ e ∈ stepEvents (finishRepo n mEv aEv v p),
      e ∈ mEv ∨ e ∈ aEv ∨ e = Event.push n ∨ ∃ ph, e = Event.logFailure n ph := by
  intro e he
  unfold finishRepo at he
  rcases v with u | _
  · by_cases hp : p = true
    · simp [hp, stepEvents] at he
      rcases he with h | h | h <;> tauto
    · simp [Bool.not_eq_true] at hp
      simp [hp, stepEvents] at he
      rcases he with h | h | h | h <;> tauto
  · simp [stepEvents] at he
    rcases he with h | h | h <;> tauto

/-- With the required credentials present, no loop iteration hits the in-loop
log.Fatalf. -/
theorem processRepo_ne_fatal (t : Target) (cfg : Config) (gid : Option Int)
    (env : RepoEnv) (r : GitHubRepo) (h : credsOk t cfg) :
    processRepo t cfg gid env r ≠ StepResult.fatal := by
  intro hfatal
  cases t with
  | gitlab =>
    simp only [processRepo] at hfatal
    split at hfatal
    · cases hfatal
    · exact finishRepo_ne_fatal _ _ _ _ _ hfatal
  | codeberg =>
    simp only [processRepo] at hfatal
    split at hfatal
    · cases hfatal
    · split at hfatal
      · rcases h with ⟨h1, h2⟩
        rename_i hcond
        tauto
      · exact finishRepo_ne_fatal _ _ _ _ _ hfatal
  | bitbucket =>
    simp only [processRepo] at hfatal
    split at hfatal
    · cases hfatal
    · split at hfatal
      · rcases h with ⟨h1, h2, h3⟩
        rename_i hcond
        tauto
      · exact finishRepo_ne_fatal _ _ _ _ _ hfatal

/-- A failed, non-fatal iteration leaves a logged failure for its repository
(mirror, validate or push phase) among its events. -/
theorem processRepo_failure_log (t : Target) (cfg : Config) (gid : Option Int)
    (env : RepoEnv) (r : GitHubRepo)
    (hf : stepOk (processRepo t cfg gid env r) = false)
    (hnf : processRepo t cfg gid env r ≠ StepResult.fatal) :
    ∃ ph, Event.logFailure r.name ph ∈ stepEvents (processRepo t cfg gid env r) := by
  cases hm : (mirrorReposFromGitHub env.mirror r.name).1 with
  | false =>
    have hproc : processRepo t cfg gid env r =
        .step false ((mirrorReposFromGitHub env.mirror r.name).2 ++
          [Event.logFailure r.name "mirror"]) := by
      cases t <;> simp [processRepo, hm]
    exact ⟨"mirror", by simp [hproc, stepEvents]⟩
  | true =>
    cases t with
    | gitlab =>
      simp only [processRepo, hm, Bool.not_true, Bool.false_eq_true, if_false] at hf ⊢
      exact finishRepo_failure_log _ _ _ _ _ hf
    | codeberg =>
      by_cases hcred : cfg.codebergUser = "" ∨ cfg.codebergToken = ""
      · exact absurd (by simp [processRepo, hm, hcred]) hnf
      · simp only [processRepo, hm, Bool.not_true, Bool.false_eq_true, if_false,
          hcred] at hf ⊢
        exact finishRepo_failure_log _ _ _ _ _ hf
    | bitbucket =>
      by_cases hcred : cfg.bitbucketEmail = "" ∨ cfg.bitbucketToken = "" ∨ cfg.bitbucketWs = ""
      · exact absurd (by simp [processRepo, hm, hcred]) hnf
      · simp only [processRepo, hm, Bool.not_true, Bool.false_eq_true, if_false,
          hcred] at hf ⊢
        exact finishRepo_failure_log _ _ _ _ _ hf

/-- A successful iteration had a successful mirror phase and a successful
push. -/
theorem processRepo_success (t : Target) (cfg : Config) (gid : Option Int)
    (env : RepoEnv) (r : GitHubRepo)
    (h : stepOk (processRepo t cfg gid env r) = true) :
    (mirrorReposFromGitHub env.mirror r.name).1 = true ∧ env.pushOk = true := by
  cases hm : (mirrorReposFromGitHub env.mirror r.name).1 with
  | false =>
    have hproc : processRepo t cfg gid env r =
        .step false ((mirrorReposFromGitHub env.mirror r.name).2 ++
          [Event.logFailure r.name "mirror"]) := by
      cases t <;> simp [processRepo, hm]
    rw [hproc] at h
    simp [stepOk] at h
  | true =>
    refine ⟨rfl, ?_⟩
    cases t with
    | gitlab =>
      simp only [processRepo, hm, Bool.not_true, Bool.false_eq_true, if_false] at h
      exact ((stepOk_finishRepo _ _ _ _ _).1 h).2
    | codeberg =>
      by_cases hcred : cfg.codebergUser = "" ∨ cfg.codebergToken = ""
      · simp [processRepo, hm, hcred, stepOk] at h
      · simp only [processRepo, hm, Bool.not_true, Bool.false_eq_true, if_false,
          hcred] at h
        exact ((stepOk_finishRepo _ _ _ _ _).1 h).2
    | bitbucket =>
      by_cases hcred : cfg.bitbucketEmail = "" ∨ cfg.bitbucketToken = "" ∨ cfg.bitbucketWs = ""
      · simp [processRepo, hm, hcred, stepOk] at h
      · simp only [processRepo, hm, Bool.not_true, Bool.false_eq_true, if_false,
          hcred] at h
        exact ((stepOk_finishRepo _ _ _ _ _).1 h).2

/-- The repository loop, when no iteration is fatal, processes every
repository: the counter counts the successful iterations and the trace is the
concatenation of the per-repository traces. -/
theorem syncLoop_eq (step : GitHubRepo → StepResult) (repos : List GitHubRepo)
    (h : ∀ r ∈ repos, step r ≠ StepResult.fatal) :
    syncLoop step repos =
      some (repos.countP (fun r => stepOk (step r)),
        (repos.map (fun r => stepEvents (step r))).flatten) := by
  induction repos with
  | nil => rfl
  | cons r rest ih =>
    have hr := h r (by simp)
    have hrest := ih (fun x hx => h x (by simp [hx]))
    cases hstep : step r with
    | fatal => exact absurd hstep hr
    | step ok ev =>
      simp only [syncLoop, hstep, hrest, List.countP_cons, List.map_cons,
        List.flatten_cons, hstep, stepOk, stepEvents]
      cases ok <;> simp <;> omega

/-- C3: with the setup phase successful and credentials present, the run exits
with code 0 whatever the per-repository outcomes; the loop handles every
repository, counting exactly those whose phases all succeed; a repository that
fails any phase leaves a logged failure in the trace; and a successful
repository necessarily had a successful mirror phase and push. -/
theorem c3_skip_and_continue (t : Target) (cfg : Config) (pages : List PageOutcome)
    (groupResp : HttpResp GroupInfo) (envs : String → RepoEnv)
    (repos : List GitHubRepo) (gid : Option Int)
    (hp : (getGitHubRepos pages).1 = GoResult.ok repos)
    (hg : (if t = Target.gitlab then getGitLabGroupID cfg.gitLabGroup groupResp
           else (.ok none, [])).1 = GoResult.ok gid)
    (hc : credsOk t cfg) :
    (runMain t cfg pages groupResp envs).exitCode = 0 ∧
    (runMain t cfg pages groupResp envs).done =
      repos.countP (fun r => stepOk (processRepo t cfg gid (envs r.name) r)) ∧
    (runMain t cfg pages groupResp envs).total = repos.length ∧
    (∀ r ∈ repos, stepOk (processRepo t cfg gid (envs r.name) r) = false →
      ∃ ph, Event.logFailure r.name ph ∈ (runMain t cfg pages groupResp envs).events) ∧
    (∀ (env : RepoEnv) (r : GitHubRepo),
      stepOk (processRepo t cfg gid env r) = true →
      (mirrorReposFromGitHub env.mirror r.name).1 = true ∧ env.pushOk = true) := by
  have hloop := syncLoop_eq (fun r => processRepo t cfg gid (envs r.name) r) repos
    (fun r _ => processRepo_ne_fatal t cfg gid (envs r.name) r hc)
  cases repos with
  | nil =>
    have hrm : runMain t cfg pages groupResp envs =
        { exitCode := 0, done := 0, total := 0,
          events := (if t = Target.gitlab then getGitLabGroupID cfg.gitLabGroup groupResp
                     else (.ok none, [])).2 } := by
      simp only [runMain, hp]
      rw [hg]
      simp
    refine ⟨by simp [hrm], by simp [hrm], by simp [hrm], by simp, ?_⟩
    exact fun env r h => processRepo_success t cfg gid env r h
  | cons r0 rest =>
    have hrm : runMain t cfg pages groupResp envs =
        { exitCode := 0,
          done := (r0 :: rest).countP
            (fun r => stepOk (processRepo t cfg gid (envs r.name) r)),
          total := (r0 :: rest).length,
          events := (if t = Target.gitlab then getGitLabGroupID cfg.gitLabGroup groupResp
                     else (.ok none, [])).2 ++
            ((r0 :: rest).map
              (fun r => stepEvents (processRepo t cfg gid (envs r.name) r))).flatten } := by
      simp only [runMain, hp]
      rw [hg]
      simp [hloop]
    refine ⟨by simp [hrm], by simp [hrm], by simp [hrm], ?_, ?_⟩
    · intro r hr hfail
      obtain ⟨ph, hph⟩ := processRepo_failure_log t cfg gid (envs r.name) r hfail
        (processRepo_ne_fatal t cfg gid (envs r.name) r hc)
      refine ⟨ph, ?_⟩
      rw [hrm]
      simp only [List.mem_append]
      right
      rw [List.mem_flatten]
      exact ⟨stepEvents (processRepo t cfg gid (envs r.name) r),
        List.mem_map_of_mem _ hr, hph⟩
    · exact fun env r h => processRepo_success t cfg gid env r h

/-- Repository used in the concrete partial-failure scenario. -/
def c3Repo (n : String) : GitHubRepo := { name := n, cloneURL := "", isPrivate := false }

/-- Five source repositories. -/
def c3Repos : List GitHubRepo :=
  [c3Repo "r1", c3Repo "r2", c3Repo "r3", c3Repo "r4", c3Repo "r5"]

/-- One listing page carrying the five repositories. -/
def c3Pages : List PageOutcome := [PageOutcome.page 200 (.ok c3Repos)]

/-- Per-repository environments: repository r3 gets a 500 on its destination
lookup, all the others behave normally. -/
def c3Envs : String → RepoEnv := fun n =>
  if n = "r3" then { glLookup := ⟨500, "server error", .err⟩ } else {}

/-- Configuration for the concrete partial-failure scenario. -/
def c3Cfg : Config :=
  { gitHubUser := "gh", gitHubToken := "ght", gitLabUser := "u", gitLabToken := "tok" }

/-- C3 witness: five repositories with a 500 on the lookup of r3 end the run
with done 4 of 5, exit code 0, and a logged failure for r3. -/
theorem c3_skip_and_continue_witness :
    (runMain Target.gitlab c3Cfg c3Pages ⟨404, "", .err⟩ c3Envs).exitCode = 0 ∧
    (runMain Target.gitlab c3Cfg c3Pages ⟨404, "", .err⟩ c3Envs).done = 4 ∧
    (runMain Target.gitlab c3Cfg c3Pages ⟨404, "", .err⟩ c3Envs).total = 5 ∧
    ∃ ph, Event.logFailure "r3" ph ∈
      (runMain Target.gitlab c3Cfg c3Pages ⟨404, "", .err⟩ c3Envs).events := by
  obtain ⟨h0, h1, h2, h3, _⟩ := c3_skip_and_continue Target.gitlab c3Cfg c3Pages
    ⟨404, "", .err⟩ c3Envs c3Repos none rfl rfl trivial
  refine ⟨h0, ?_, ?_, ?_⟩
  · rw [h1]; rfl
  · rw [h2]; rfl
  · have := h3 (c3Repo "r3") (by simp [c3Repos]) (by rfl)
    simpa [c3Repo] using this

/-- Every event of a gitlab-target loop iteration is a git event for that
repository, the single project lookup at the computed project path, a
provider mutation event, the push, or a logged failure. -/
theorem processRepoGitLab_event_shape (cfg : Config) (gid : Option Int)
    (env : RepoEnv) (r : GitHubRepo) :
    ∀ e ∈ stepEvents (processRepo Target.gitlab cfg gid env r),
      e = Event.gitFetch r.name ∨ e = Event.removeDir r.name ∨
      e = Event.gitClone r.name ∨
      e = Event.lookupRepo (gitLabProjPath cfg.gitLabGroup r.name cfg.gitLabUser gid) ∨
      (∃ a ∈ (checkAndValidateGitLabRepos (getGitLabProject env.glLookup).1
          (createGitLabProject env.glCreate).1
          (updateGitLabProjectVisibility env.glUpdate).1
          (computeRepoVisibility cfg.repoVisibility r.isPrivate)).2,
        e = glActionEvent r.name a) ∨
      e = Event.push r.name ∨ (∃ ph, e = Event.logFailure r.name ph) := by
  intro e he
  cases hm : (mirrorReposFromGitHub env.mirror r.name).1 with
  | false =>
    have hproc : processRepo Target.gitlab cfg gid env r =
        .step false ((mirrorReposFromGitHub env.mirror r.name).2 ++
          [Event.logFailure r.name "mirror"]) := by
      simp [processRepo, hm]
    rw [hproc] at he
    simp only [stepEvents, List.mem_append] at he
    rcases he with h | h
    · rcases mirror_events_cases env.mirror r.name e h with h2 | h2 | h2 <;> tauto
    · simp at h
      exact Or.inr (Or.inr (Or.inr (Or.inr (Or.inr (Or.inr ⟨"mirror", h⟩)))))
  | true =>
    simp only [processRepo, hm, Bool.not_true, Bool.false_eq_true, if_false] at he
    rcases finishRepo_events_cases _ _ _ _ _ e he with h | h | h | h
    · rcases mirror_events_cases env.mirror r.name e h with h2 | h2 | h2 <;> tauto
    · simp only [List.mem_cons, List.mem_map] at h
      rcases h with h | ⟨a, ha, h⟩
      · tauto
      · exact Or.inr (Or.inr (Or.inr (Or.inr (Or.inl ⟨a, ha, h.symm⟩))))
    · tauto
    · tauto

/-- Every mutation issued by the GitLab reconciler carries exactly the desired
visibility it was given. -/
theorem glActions_carry_visibility (l : GoResult (Option GitLabProject))
    (c : GoResult GitLabProject) (u : GoResult Unit) (v : String) :
    ∀ a ∈ (checkAndValidateGitLabRepos l c u v).2,
      a = GLAction.create v ∨ ∃ id, a = GLAction.updateVisibility id v := by
  intro a ha
  unfold checkAndValidateGitLabRepos at ha
  rcases l with l | _
  · rcases l with _ | p
    · rcases c with _ | _ <;> simp at ha <;> tauto
    · by_cases h : p.visibility = v
      · simp [h] at ha
      · rcases u with _ | _ <;> simp [h] at ha <;>
          exact Or.inr ⟨p.id, ha⟩
  · simp at ha

/-- C8: in a run with a configured GitLab group whose lookup answers 2xx, the
trace opens with exactly one group lookup — before any repository processing —
and no further group lookup ever occurs; moreover every project lookup of a
gitlab iteration addresses group/name when a group id was resolved and a group
is configured, and user/name when no group id was resolved. -/
theorem c8_group_resolved_once (cfg : Config) (pages : List PageOutcome)
    (groupResp : HttpResp GroupInfo) (envs : String → RepoEnv)
    (repos : List GitHubRepo) (g : GroupInfo)
    (hgrp : cfg.gitLabGroup ≠ "")
    (hp : (getGitHubRepos pages).1 = GoResult.ok repos)
    (h2xx : 200 ≤ groupResp.status ∧ groupResp.status < 300)
    (hdec : groupResp.decoded = GoResult.ok g) :
    (∃ rest, (runMain Target.gitlab cfg pages groupResp envs).events =
        Event.groupLookup cfg.gitLabGroup :: rest ∧
      ∀ gname, Event.groupLookup gname ∉ rest) ∧
    (∀ (gid : Int) (env : RepoEnv) (r : GitHubRepo) (p : String),
      Event.lookupRepo p ∈ stepEvents (processRepo Target.gitlab cfg (some gid) env r) →
      p = cfg.gitLabGroup ++ "/" ++ r.name) ∧
    (∀ (cfg2 : Config) (env : RepoEnv) (r : GitHubRepo) (p : String),
      Event.lookupRepo p ∈ stepEvents (processRepo Target.gitlab cfg2 none env r) →
      p = cfg2.gitLabUser ++ "/" ++ r.name) := by
  have hnolookup : ∀ (cfg2 : Config) (gid : Option Int) (env : RepoEnv)
      (r : GitHubRepo) (gname : String),
      Event.groupLookup gname ∉ stepEvents (processRepo Target.gitlab cfg2 gid env r) := by
    intro cfg2 gid env r gname hmem
    rcases processRepoGitLab_event_shape cfg2 gid env r _ hmem with
      h | h | h | h | ⟨a, _, h⟩ | h | ⟨ph, h⟩
    · cases h
    · cases h
    · cases h
    · cases h
    · cases a <;> simp [glActionEvent] at h
    · cases h
    · cases h
  have hpath : ∀ (cfg2 : Config) (gid : Option Int) (env : RepoEnv)
      (r : GitHubRepo) (p : String),
      Event.lookupRepo p ∈ stepEvents (processRepo Target.gitlab cfg2 gid env r) →
      p = gitLabProjPath cfg2.gitLabGroup r.name cfg2.gitLabUser gid := by
    intro cfg2 gid env r p hmem
    rcases processRepoGitLab_event_shape cfg2 gid env r _ hmem with
      h | h | h | h | ⟨a, _, h⟩ | h | ⟨ph, h⟩
    · cases h
    · cases h
    · cases h
    · cases h; rfl
    · cases a <;> simp [glActionEvent] at h
    · cases h
    · cases h
  refine ⟨?_, ?_, ?_⟩
  · have hgid : getGitLabGroupID cfg.gitLabGroup groupResp =
        (.ok (some g.id), [Event.groupLookup cfg.gitLabGroup]) := by
      simp [getGitLabGroupID, hgrp, h2xx, hdec]
    cases repos with
    | nil =>
      refine ⟨[], ?_, by simp⟩
      simp only [runMain, hp]
      simp [hgid]
    | cons r0 rest0 =>
      have hloop := syncLoop_eq
        (fun r => processRepo Target.gitlab cfg (some g.id) (envs r.name) r)
        (r0 :: rest0)
        (fun r _ => processRepo_ne_fatal Target.gitlab cfg (some g.id) (envs r.name) r
          trivial)
      refine ⟨((r0 :: rest0).map
        (fun r => stepEvents (processRepo Target.gitlab cfg (some g.id) (envs r.name) r))).flatten,
        ?_, ?_⟩
      · simp only [runMain, hp]
        simp [hgid, hloop]
      · intro gname hmem
        rw [List.mem_flatten] at hmem
        obtain ⟨l, hl, hmem2⟩ := hmem
        rw [List.mem_map] at hl
        obtain ⟨r, _, rfl⟩ := hl
        exact hnolookup cfg (some g.id) (envs r.name) r gname hmem2
  · intro gid env r p hmem
    have := hpath cfg (some gid) env r p hmem
    simpa [gitLabProjPath, hgrp] using this
  · intro cfg2 env r p hmem
    have := hpath cfg2 none env r p hmem
    simpa [gitLabProjPath] using this

/-- C10: a configured visibility policy that is neither auto nor empty — any
string, including values outside public and private such as internal — is used
verbatim as the desired visibility for every repository, with no validation or
normalization, and is exactly the visibility carried by any GitLab create or
update issued in that configuration; the hard-coded default private applies
only to the empty policy string. -/
theorem c10_visibility_passthrough (cfgVis : String)
    (h1 : cfgVis ≠ "auto") (h2 : cfgVis ≠ "") :
    (∀ (p : Bool), computeRepoVisibility cfgVis p = cfgVis) ∧
    (∀ (p : Bool), computeRepoVisibility "" p = "private") ∧
    (∀ (cfg : Config) (gid : Option Int) (env : RepoEnv) (r : GitHubRepo) (vis : String),
      cfg.repoVisibility = cfgVis →
      (Event.glCreate r.name vis ∈ stepEvents (processRepo Target.gitlab cfg gid env r) ∨
       (∃ id, Event.glUpdate r.name id vis ∈
          stepEvents (processRepo Target.gitlab cfg gid env r))) →
      vis = cfgVis) := by
  have hcomp : ∀ (p : Bool), computeRepoVisibility cfgVis p = cfgVis := by
    intro p; simp [computeRepoVisibility, h1, h2]
  refine ⟨hcomp, by intro p; simp [computeRepoVisibility], ?_⟩
  intro cfg gid env r vis hcfg hmem
  have hact : ∀ (a : GLAction),
      a ∈ (checkAndValidateGitLabRepos (getGitLabProject env.glLookup).1
        (createGitLabProject env.glCreate).1
        (updateGitLabProjectVisibility env.glUpdate).1
        (computeRepoVisibility cfg.repoVisibility r.isPrivate)).2 →
      (∀ v, a = GLAction.create v → v = cfgVis) ∧
      (∀ id v, a = GLAction.updateVisibility id v → v = cfgVis) := by
    intro a ha
    have hv : computeRepoVisibility cfg.repoVisibility r.isPrivate = cfgVis := by
      rw [hcfg]; exact hcomp r.isPrivate
    rcases glActions_carry_visibility _ _ _ _ a ha with h | ⟨id, h⟩
    · subst h
      constructor
      · intro v hv2
        cases hv2
        exact hv
      · intro id v hv2; cases hv2
    · subst h
      constructor
      · intro v hv2; cases hv2
      · intro id2 v hv2
        cases hv2
        exact hv
  rcases hmem with hmem | ⟨id, hmem⟩
  · rcases processRepoGitLab_event_shape cfg gid env r _ hmem with
      h | h | h | h | ⟨a, ha, h⟩ | h | ⟨ph, h⟩
    · cases h
    · cases h
    · cases h
    · cases h
    · cases a with
      | create v =>
        simp only [glActionEvent] at h
        cases h
        exact (hact _ ha).1 _ rfl
      | updateVisibility id v => simp [glActionEvent] at h
    · cases h
    · cases h
  · rcases processRepoGitLab_event_shape cfg gid env r _ hmem with
      h | h | h | h | ⟨a, ha, h⟩ | h | ⟨ph, h⟩
    · cases h
    · cases h
    · cases h
    · cases h
    · cases a with
      | create v => simp [glActionEvent] at h
      | updateVisibility id2 v =>
        simp only [glActionEvent] at h
        cases h
        exact (hact _ ha).2 _ _ rfl
    · cases h
    · cases h

/-- C10 witness: the policy string internal flows through unchanged — it is
the computed visibility and the visibility of the create actually issued — and
the empty policy yields private. -/
theorem c10_visibility_passthrough_witness :
    computeRepoVisibility "internal" true = "internal" ∧
    computeRepoVisibility "" false = "private" ∧
    Event.glCreate "n" "internal" ∈ stepEvents (processRepo Target.gitlab
      { gitLabUser := "u", repoVisibility := "internal" } none {} ⟨"n", "", false⟩) := by
  obtain ⟨ha, hb, _⟩ := c10_visibility_passthrough "internal" (by decide) (by decide)
  exact ⟨ha true, hb false, by decide⟩

/-- Metadata of an HTTP request as built by a doXxxRequest helper: method,
full URL and the credentials set through SetBasicAuth, when any. -/
structure RequestMeta where
  method : String
  url : String
  basicAuth : Option (String × String)
  deriving DecidableEq, Repr

/-- doBitbucketRequest (bitbucket.go): builds the request against
https://api.bitbucket.org/2.0 and authenticates with HTTP Basic auth using the
account email and the API token (query parameters are empty for all the
embedded callers). -/
def doBitbucketRequest (cfg : Config) (method path : String) : RequestMeta :=
  { method := method
    url := "https://api.bitbucket.org/2.0" ++ path
    basicAuth := some (cfg.bitbucketEmail, cfg.bitbucketToken) }

/-- syncToBitbucket (bitbucket.go), push-URL construction: bbURL is
https://bitbucket.org/workspace/repoSlug.git and strings.Replace substitutes
its leading https:// scheme — its only occurrence — with
https://x-bitbucket-api-token-auth:token@, yielding the URL below.  The email
parameter of the Go function is never used in the URL. -/
def syncToBitbucketPushURL (email token workspace repoSlug : String) : String :=
  "https://x-bitbucket-api-token-auth:" ++ token ++ "@" ++ "bitbucket.org/" ++
    workspace ++ "/" ++ repoSlug ++ ".git"

/-- C9: Bitbucket API requests authenticate with HTTP Basic auth using the
account email and API token, while the push URL embeds the fixed literal
username x-bitbucket-api-token-auth paired with the API token as password and
is entirely independent of the account email. -/
theorem c9_bitbucket_auth_schemes :
    (∀ (cfg : Config) (m p : String),
      (doBitbucketRequest cfg m p).basicAuth =
        some (cfg.bitbucketEmail, cfg.bitbucketToken)) ∧
    (∀ (email token ws slug : String),
      syncToBitbucketPushURL email token ws slug =
        "https://x-bitbucket-api-token-auth:" ++ token ++ "@" ++ "bitbucket.org/" ++
          ws ++ "/" ++ slug ++ ".git") ∧
    (∀ (e1 e2 token ws slug : String),
      syncToBitbucketPushURL e1 token ws slug = syncToBitbucketPushURL e2 token ws slug) :=
  ⟨fun _ _ _ => rfl, fun _ _ _ _ => rfl, fun _ _ _ _ _ => rfl⟩

/-- C8 witness: concrete run with group grp answering 2xx id 7 — the trace
opens with the single group lookup and contains no other. -/
theorem c8_group_resolved_once_witness :
    ∃ rest, (runMain Target.gitlab
        { gitLabUser := "u", gitLabToken := "t", gitLabGroup := "grp" }
        c3Pages ⟨200, "", .ok ⟨7⟩⟩ (fun _ => {})).events =
      Event.groupLookup "grp" :: rest ∧
      ∀ gname, Event.groupLookup gname ∉ rest :=
  (c8_group_resolved_once
    { gitLabUser := "u", gitLabToken := "t", gitLabGroup := "grp" }
    c3Pages ⟨200, "", .ok ⟨7⟩⟩ (fun _ => {}) c3Repos ⟨7⟩
    (by decide) rfl (by decide) rfl).1
